/-
Verification of the GCM dispatch-and-reconcile module
(src/push_notifications/gcm.py) against its specification.

The embedding below translates the module function by function:
  _chunks                 -> chunks (fuel-driven, so that it computes)
  _gcm_send               -> gcm_send_check (the configuration guard; the
                             HTTP POST itself is abstracted into an oracle
                             mapping the sent registration-id chunk to the
                             parsed gateway response, and every transport
                             invocation is recorded in a trace)
  _gcm_send_json          -> gcm_values / gcm_json_body / gcm_send_json
  gcm_send_message        -> gcm_send_message
  gcm_send_bulk_message   -> gcm_send_bulk_message
  _cm_handle_response     -> cm_handle_response (with cm_collect for the
                             enumerate loop)
  _cm_handle_canonical_id -> cm_handle_canonical_id
Python exceptions (KeyError, IndexError, ImproperlyConfigured, GCMError)
become the PyErr sum type; the device registry (the GCMDevice ORM table)
becomes a list of rows, and the two ORM updates used by the module
(filter(...).update(active=...) and filter(...).update(registration_id=...))
become maps over that list.
-/
import Mathlib

/-- Python truthiness of an optional string (None and the empty string are falsy). -/
def pyTruthyStr : Option String → Bool
  | none => false
  | some s => s != ""

/-- Python truthiness of an optional integer (None and 0 are falsy). -/
def pyTruthyInt : Option Int → Bool
  | none => false
  | some n => n != 0

/-- One row of the GCMDevice table: the two columns gcm.py reads and writes. -/
structure GCMDevice where
  registration_id : String
  active : Bool
deriving DecidableEq, Repr

/-- The device registry: the GCMDevice table as a list of rows. -/
abbrev Registry := List GCMDevice

/-- One element of the gateway response results array
(fields read by _cm_handle_response). -/
structure GcmResult where
  error : Option String := none
  registration_id : Option String := none
deriving DecidableEq, Repr

/-- The parsed gateway response: the three keys _cm_handle_response reads.
A missing results key is modelled as none (reading it raises KeyError). -/
structure GcmResponse where
  failure : Option Int := none
  canonical_ids : Option Int := none
  results : Option (List GcmResult) := none
deriving DecidableEq, Repr

/-- Python exceptions raised by the module. -/
inductive PyErr where
  | keyError
  | indexError
  | improperlyConfigured
  | gcmError (response : GcmResponse)
deriving DecidableEq, Repr

/-- Decidable equality for Except values, so that concrete runs of the
embedded functions can be checked by decide. -/
instance {ε α : Type} [DecidableEq ε] [DecidableEq α] : DecidableEq (Except ε α) := fun a b =>
  match a, b with
  | .error a, .error b =>
    if h : a = b then .isTrue (by rw [h])
    else .isFalse (by intro hh; injection hh; contradiction)
  | .error _, .ok _ => .isFalse (fun h => by cases h)
  | .ok _, .error _ => .isFalse (fun h => by cases h)
  | .ok a, .ok b =>
    if h : a = b then .isTrue (by rw [h])
    else .isFalse (by intro hh; injection hh; contradiction)

/-- Fuel-driven worker for chunks; each step emits l.take n and recurses on
l.drop n, exactly the slices produced by range(0, len(l), n). -/
def chunksGo (n : Nat) : Nat → List α → List (List α)
  | 0, _ => []
  | fuel + 1, l => if l.isEmpty then [] else l.take n :: chunksGo n fuel (l.drop n)

/-- Embedding of _chunks(l, n): successive slices l[i:i+n] for i in
range(0, len(l), n). With n = 0 the Python range call raises ValueError;
that case is mapped to the empty sequence and every claim assumes n ≥ 1. -/
def chunks (l : List α) (n : Nat) : List (List α) :=
  if n = 0 then [] else chunksGo n l.length l

theorem chunksGo_nil (n : Nat) (fuel : Nat) : chunksGo n fuel ([] : List α) = [] := by
  cases fuel <;> simp [chunksGo]

theorem chunksGo_fuel (n : Nat) (hn : n ≠ 0) :
    ∀ fuel fuel₂ (l : List α), l.length ≤ fuel → l.length ≤ fuel₂ →
      chunksGo n fuel l = chunksGo n fuel₂ l := by
  intro fuel
  induction fuel with
  | zero =>
    intro fuel₂ l h _
    have : l = [] := List.length_eq_zero.mp (Nat.le_zero.mp h)
    subst this
    simp [chunksGo_nil]
  | succ m ih =>
    intro fuel₂ l h h₂
    cases l with
    | nil => simp [chunksGo_nil]
    | cons x xs =>
      cases fuel₂ with
      | zero => simp at h₂
      | succ m₂ =>
        have hxm : xs.length ≤ m := by simpa using h
        have hxm₂ : xs.length ≤ m₂ := by simpa using h₂
        have hd : ((x :: xs).drop n).length ≤ xs.length := by
          simp only [List.length_drop, List.length_cons]
          omega
        simp only [chunksGo, List.isEmpty_cons, Bool.false_eq_true, if_false]
        rw [ih m₂ ((x :: xs).drop n) (le_trans hd hxm) (le_trans hd hxm₂)]

theorem chunks_nil (n : Nat) : chunks ([] : List α) n = [] := by
  by_cases hn : n = 0 <;> simp [chunks, hn, chunksGo_nil]

theorem chunks_cons {n : Nat} (hn : n ≠ 0) {l : List α} (hl : l ≠ []) :
    chunks l n = l.take n :: chunks (l.drop n) n := by
  have hpos : 0 < l.length := List.length_pos.mpr hl
  obtain ⟨m, hm⟩ : ∃ m, l.length = m + 1 := ⟨l.length - 1, by omega⟩
  have hne : ¬(l.isEmpty = true) := by simpa [List.isEmpty_eq_true] using hl
  simp only [chunks, if_neg hn, hm]
  show chunksGo n (m + 1) l = l.take n :: chunksGo n (l.drop n).length (l.drop n)
  simp only [chunksGo, if_neg hne]
  congr 1
  apply chunksGo_fuel n hn
  · simp only [List.length_drop]
    omega
  · simp

theorem chunks_flatten {n : Nat} (hn : n ≠ 0) (l : List α) : (chunks l n).flatten = l := by
  by_cases hl : l = []
  · subst hl; simp [chunks_nil]
  · rw [chunks_cons hn hl]
    simp only [List.flatten_cons]
    rw [chunks_flatten hn (l.drop n), List.take_append_drop]
termination_by l.length
decreasing_by
  simp only [List.length_drop]
  have := List.length_pos.mpr hl
  omega

theorem chunks_mem_length {n : Nat} (hn : n ≠ 0) (l : List α) :
    ∀ c ∈ chunks l n, c.length ≤ n ∧ c ≠ [] := by
  by_cases hl : l = []
  · subst hl; simp [chunks_nil]
  · rw [chunks_cons hn hl]
    intro c hc
    rcases List.mem_cons.mp hc with h | h
    · subst h
      constructor
      · simp
      · have := List.length_pos.mpr hl
        simp only [ne_eq, ← List.length_pos, List.length_take]
        omega
    · exact chunks_mem_length hn (l.drop n) c h
termination_by l.length
decreasing_by
  simp only [List.length_drop]
  have := List.length_pos.mpr hl
  omega

theorem chunks_dropLast_length {n : Nat} (hn : n ≠ 0) (l : List α) :
    ∀ c ∈ (chunks l n).dropLast, c.length = n := by
  by_cases hl : l = []
  · subst hl; simp [chunks_nil]
  · rw [chunks_cons hn hl]
    by_cases hrest : chunks (l.drop n) n = []
    · simp [hrest]
    · rw [List.dropLast_cons_of_ne_nil hrest]
      intro c hc
      rcases List.mem_cons.mp hc with h | h
      · subst h
        have hdrop : l.drop n ≠ [] := by
          intro hd
          exact hrest (by rw [hd]; exact chunks_nil n)
        have : n < l.length := by
          have := List.length_pos.mpr hdrop
          simp only [List.length_drop] at this
          omega
        simp only [List.length_take]
        omega
      · exact chunks_dropLast_length hn (l.drop n) c h
termination_by l.length
decreasing_by
  simp only [List.length_drop]
  have := List.length_pos.mpr hl
  omega

/-- Codes for which _cm_handle_response deactivates the device: the two
terminal-invalidity error codes. -/
def terminal_code (e : String) : Bool :=
  e == "NotRegistered" || e == "InvalidRegistration"

/-- Embedding of the enumerate loop of _cm_handle_response starting at
position index: walks the results array and collects, in loop order,
ids_to_remove, old_new_ids and the throw_error flag. An out-of-range
access registration_ids[index] aborts the whole call with IndexError,
exactly where Python would evaluate it (only when the entry carries a
truthy terminal error code or a truthy replacement registration_id). -/
def cm_collect (registration_ids : List String) :
    Nat → List GcmResult → Except PyErr (List String × List (String × String) × Bool)
  | _, [] => .ok ([], [], false)
  | index, result :: rest =>
    let errStep : Except PyErr (List String × Bool) :=
      match result.error with
      | some e =>
        if e = "" then .ok ([], false)
        else if terminal_code e then
          match registration_ids[index]? with
          | some t => .ok ([t], false)
          | none => .error .indexError
        else .ok ([], true)
      | none => .ok ([], false)
    let idStep : Except PyErr (List (String × String)) :=
      match result.registration_id with
      | some newId =>
        if newId = "" then .ok []
        else
          match registration_ids[index]? with
          | some t => .ok [(t, newId)]
          | none => .error .indexError
      | none => .ok []
    match errStep with
    | .error e => .error e
    | .ok (rem, thr) =>
      match idStep with
      | .error e => .error e
      | .ok prs =>
        match cm_collect registration_ids (index + 1) rest with
        | .error e => .error e
        | .ok (rems, prss, thrs) => .ok (rem ++ rems, prs ++ prss, thr || thrs)

/-- Embedding of GCMDevice.objects.filter(registration_id__in=ids).update(active=0):
deactivate every registry row whose token is in ids. -/
def deactivate_in (ids_to_remove : List String) (reg : Registry) : Registry :=
  reg.map fun d =>
    if d.registration_id ∈ ids_to_remove then { d with active := false } else d

/-- Embedding of _cm_handle_canonical_id(canonical_id, current_id): if an
active row with the canonical token exists, deactivate the rows holding the
current token; otherwise rename the rows holding the current token in place. -/
def cm_handle_canonical_id (canonical_id current_id : String) (reg : Registry) : Registry :=
  if reg.any fun d => d.registration_id == canonical_id && d.active then
    reg.map fun d =>
      if d.registration_id = current_id then { d with active := false } else d
  else
    reg.map fun d =>
      if d.registration_id = current_id then { d with registration_id := canonical_id } else d

/-- Embedding of _cm_handle_response(registration_ids, response_data): gated on a
truthy top-level failure or canonical_ids count, it runs the collect loop, then
the batch deactivation, then each canonical-id resolution in discovered order,
and finally raises GCMError when a non-terminal error code was seen. Returns the
(possibly mutated) registry together with the returned response or the raised
exception. -/
def cm_handle_response (registration_ids : List String) (response : GcmResponse)
    (reg : Registry) : Registry × Except PyErr GcmResponse :=
  if pyTruthyInt response.failure || pyTruthyInt response.canonical_ids then
    match response.results with
    | none => (reg, .error .keyError)
    | some results =>
      match cm_collect registration_ids 0 results with
      | .error e => (reg, .error e)
      | .ok (ids_to_remove, old_new_ids, throw_error) =>
        let reg₁ := if ids_to_remove.isEmpty then reg else deactivate_in ids_to_remove reg
        let reg₂ := old_new_ids.foldl (fun r p => cm_handle_canonical_id p.2 p.1 r) reg₁
        if throw_error then (reg₂, .error (.gcmError response)) else (reg₂, .ok response)
  else (reg, .ok response)

/-- Specification-side view of one result entry: carries a terminal-invalidity
error code (a truthy error equal to NotRegistered or InvalidRegistration). -/
def result_terminal (r : GcmResult) : Bool :=
  match r.error with
  | some e => terminal_code e
  | none => false

/-- Specification-side view of one result entry: carries a truthy error code
that is not terminal (the codes that set throw_error). -/
def result_other_error (r : GcmResult) : Bool :=
  match r.error with
  | some e => e != "" && !terminal_code e
  | none => false

/-- Specification-side view of one result entry: carries a truthy replacement
registration id (a canonical id). -/
def result_canonical (r : GcmResult) : Bool :=
  pyTruthyStr r.registration_id

/-- Tokens marked for deactivation, read off positionally from the zip of the
request tokens with the results array. -/
def ids_to_remove_spec (ids : List String) (rs : List GcmResult) : List String :=
  ((ids.zip rs).filter fun p => result_terminal p.2).map Prod.fst

/-- Rename pairs (old token, canonical id) in discovered order, read off
positionally from the zip of the request tokens with the results array. -/
def old_new_spec (ids : List String) (rs : List GcmResult) : List (String × String) :=
  ((ids.zip rs).filter fun p => result_canonical p.2).map fun p =>
    (p.1, p.2.registration_id.getD "")

/-- The registry effect of one chunk reconciliation: batch deactivation first,
then every canonical-id resolution in discovered order. -/
def reconcile_effect (ids : List String) (rs : List GcmResult) (reg : Registry) : Registry :=
  (old_new_spec ids rs).foldl (fun r p => cm_handle_canonical_id p.2 p.1 r)
    (deactivate_in (ids_to_remove_spec ids rs) reg)

/-- Minimal JSON value universe for the outgoing envelope. -/
inductive PyJson where
  | str : String → PyJson
  | int : Int → PyJson
  | bool : Bool → PyJson
  | arr : List PyJson → PyJson

/-- The tuple args = (data, collapse_key, delay_while_idle, time_to_live)
threaded through the facade functions. -/
structure GcmArgs where
  data : Option PyJson := none
  collapse_key : Option String := none
  delay_while_idle : Bool := false
  time_to_live : Int := 0

/-- The envelope built by _gcm_send_json, as the key/value list in insertion
order: registration_ids always, data when not None, collapse_key when truthy,
delay_while_idle when truthy, time_to_live when truthy (non-zero). -/
def gcm_values (registration_ids : List String) (a : GcmArgs) : List (String × PyJson) :=
  [("registration_ids", PyJson.arr (registration_ids.map PyJson.str))]
    ++ (match a.data with
        | some d => [("data", d)]
        | none => [])
    ++ (if pyTruthyStr a.collapse_key then
          [("collapse_key", PyJson.str (a.collapse_key.getD ""))]
        else [])
    ++ (if a.delay_while_idle then [("delay_while_idle", PyJson.bool true)] else [])
    ++ (if a.time_to_live ≠ 0 then [("time_to_live", PyJson.int a.time_to_live)] else [])

/-- Insertion of one field into a key-sorted field list (keys are distinct). -/
def insertField (p : String × PyJson) : List (String × PyJson) → List (String × PyJson)
  | [] => [p]
  | q :: qs => if p.1 < q.1 then p :: q :: qs else q :: insertField p qs

/-- Sorting of the envelope fields by key, the effect of sort_keys=True. -/
def sortFields : List (String × PyJson) → List (String × PyJson)
  | [] => []
  | p :: ps => insertField p (sortFields ps)

mutual

/-- Serialization of one JSON value with separators (",", ":"). -/
def dumpsVal : PyJson → String
  | .str s => "\"" ++ s ++ "\""
  | .int n => toString n
  | .bool b => if b then "true" else "false"
  | .arr xs => "[" ++ dumpsSeq xs ++ "]"

/-- Serialization of the elements of a JSON array, comma separated. -/
def dumpsSeq : List PyJson → String
  | [] => ""
  | [x] => dumpsVal x
  | x :: y :: xs => dumpsVal x ++ "," ++ dumpsSeq (y :: xs)

end

/-- Serialization of the envelope with sort_keys=True and separators (",", ":"),
as performed by json.dumps in _gcm_send_json. -/
def dumpsObj (fields : List (String × PyJson)) : String :=
  "\x7b" ++
    String.intercalate ","
      ((sortFields fields).map fun p => "\"" ++ p.1 ++ "\":" ++ dumpsVal p.2) ++
  "\x7d"

/-- The serialized request body of _gcm_send_json for one chunk. -/
def gcm_json_body (registration_ids : List String) (a : GcmArgs) : String :=
  dumpsObj (gcm_values registration_ids a)

/-- The settings read by gcm.py: GCM_API_KEY (optional, checked for truthiness
by _gcm_send) and GCM_MAX_RECIPIENTS. The post URL and HTTP plumbing sit below
the abstraction boundary of this embedding. -/
structure Settings where
  gcm_api_key : Option String := none
  gcm_max_recipients : Nat := 1000
deriving DecidableEq, Repr

/-- The configuration guard of _gcm_send: raises ImproperlyConfigured when the
configured API key is missing or empty, before any transport activity. -/
def gcm_send_check (st : Settings) : Except PyErr Unit :=
  if pyTruthyStr st.gcm_api_key then .ok () else .error .improperlyConfigured

/-- A Python return value of the facade functions: None, one response dict, or
a list of per-chunk values. -/
inductive PyRet where
  | noneV : PyRet
  | respV : GcmResponse → PyRet
  | listV : List PyRet → PyRet

/-- One transport invocation: the chunk of registration ids that was sent
together with the serialized request body built for it. -/
abbrev Transmission := List String × String

/-- Embedding of _gcm_send_json(registration_ids, ...): returns None on an empty
token list, otherwise builds the envelope, passes the _gcm_send configuration
guard, performs the transport call (the HTTP POST and the json.loads of its
body are abstracted into the oracle mapping the sent chunk to its parsed
response; the invocation is recorded in the trace of transmissions), and
reconciles the response. Result: (registry, transport trace, returned value or
raised exception). -/
def gcm_send_json (registration_ids : List String) (a : GcmArgs) (st : Settings)
    (oracle : List String → GcmResponse) (reg : Registry) :
    Registry × List Transmission × Except PyErr PyRet :=
  if registration_ids.isEmpty then (reg, [], .ok .noneV)
  else
    let body := gcm_json_body registration_ids a
    match gcm_send_check st with
    | .error e => (reg, [], .error e)
    | .ok _ =>
      let response := oracle registration_ids
      let (reg₂, res) := cm_handle_response registration_ids response reg
      match res with
      | .error e => (reg₂, [(registration_ids, body)], .error e)
      | .ok r => (reg₂, [(registration_ids, body)], .ok (.respV r))

/-- Embedding of gcm_send_message(registration_id, ...): calls _gcm_send_json on
the one-element list and falls off the end of the function, so a successful call
returns None while exceptions propagate. -/
def gcm_send_message (registration_id : String) (a : GcmArgs) (st : Settings)
    (oracle : List String → GcmResponse) (reg : Registry) :
    Registry × List Transmission × Except PyErr PyRet :=
  let (reg₂, trace, res) := gcm_send_json [registration_id] a st oracle reg
  match res with
  | .error e => (reg₂, trace, .error e)
  | .ok _ => (reg₂, trace, .ok .noneV)

/-- The chunk loop of gcm_send_bulk_message: sends each chunk in order,
appending its returned value to ret; an exception raised by a chunk propagates
immediately, so the remaining chunks are not dispatched. -/
def gcm_bulk_loop (cs : List (List String)) (a : GcmArgs) (st : Settings)
    (oracle : List String → GcmResponse) (reg : Registry) :
    Registry × List Transmission × Except PyErr (List PyRet) :=
  match cs with
  | [] => (reg, [], .ok [])
  | c :: rest =>
    let (reg₁, tr₁, res) := gcm_send_json c a st oracle reg
    match res with
    | .error e => (reg₁, tr₁, .error e)
    | .ok v =>
      let (reg₂, tr₂, res₂) := gcm_bulk_loop rest a st oracle reg₁
      match res₂ with
      | .error e => (reg₂, tr₁ ++ tr₂, .error e)
      | .ok vs => (reg₂, tr₁ ++ tr₂, .ok (v :: vs))

/-- Embedding of gcm_send_bulk_message(registration_ids, ...): when the token
list is longer than GCM_MAX_RECIPIENTS it loops over the chunks and returns the
collected list; otherwise it is one _gcm_send_json call. -/
def gcm_send_bulk_message (registration_ids : List String) (a : GcmArgs) (st : Settings)
    (oracle : List String → GcmResponse) (reg : Registry) :
    Registry × List Transmission × Except PyErr PyRet :=
  if registration_ids.length > st.gcm_max_recipients then
    let (reg₂, tr, res) := gcm_bulk_loop (chunks registration_ids st.gcm_max_recipients)
      a st oracle reg
    (reg₂, tr, res.map .listV)
  else
    gcm_send_json registration_ids a st oracle reg


/-- Claim C6: for every input list and chunk size n ≥ 1 the Batcher yields
contiguous non-overlapping sub-lists in original order whose concatenation
reproduces the input exactly (hence no reordering or deduplication), every
chunk except possibly the last has length exactly n, no chunk is empty or
longer than n, and empty input yields an empty sequence. -/
theorem claim_C6_batcher {α : Type} (l : List α) (n : Nat) (h : 1 ≤ n) :
    (chunks l n).flatten = l ∧
    (∀ c ∈ (chunks l n).dropLast, c.length = n) ∧
    (∀ c ∈ chunks l n, c.length ≤ n ∧ c ≠ []) ∧
    chunks ([] : List α) n = [] := by
  have hn : n ≠ 0 := by omega
  exact ⟨chunks_flatten hn l, chunks_dropLast_length hn l, chunks_mem_length hn l,
    chunks_nil n⟩

/-- Witness for C6 at a concrete list and chunk size. -/
theorem claim_C6_witness :
    1 ≤ 2 ∧ (chunks ["a", "b", "c", "d", "e"] 2).flatten = ["a", "b", "c", "d", "e"] :=
  ⟨by decide, (claim_C6_batcher ["a", "b", "c", "d", "e"] 2 (by decide)).1⟩

/-- Claim C10: when the top-level failure and canonical_ids counts are both
falsy, _cm_handle_response returns the response unchanged, performs no registry
mutation and raises no error, regardless of the contents of results. -/
theorem claim_C10_falsy_gate (ids : List String) (resp : GcmResponse) (reg : Registry)
    (h : (pyTruthyInt resp.failure || pyTruthyInt resp.canonical_ids) = false) :
    cm_handle_response ids resp reg = (reg, .ok resp) := by
  simp [cm_handle_response, h]

/-- Witness for C10: a response with failure 0 whose results array carries both
an error code and a replacement id is returned unchanged with no mutation. -/
theorem claim_C10_witness :
    (pyTruthyInt (GcmResponse.failure
        { failure := some 0,
          results := some [{ error := some "NotRegistered",
                             registration_id := some "NEW" }] }) ||
      pyTruthyInt (GcmResponse.canonical_ids
        { failure := some 0,
          results := some [{ error := some "NotRegistered",
                             registration_id := some "NEW" }] })) = false ∧
    cm_handle_response ["A"]
        { failure := some 0,
          results := some [{ error := some "NotRegistered",
                             registration_id := some "NEW" }] }
        [⟨"A", true⟩]
      = ([⟨"A", true⟩],
         .ok { failure := some 0,
               results := some [{ error := some "NotRegistered",
                                  registration_id := some "NEW" }] }) :=
  ⟨by decide, claim_C10_falsy_gate _ _ _ (by decide)⟩

/-- The collect loop only reads registration_ids at the positions of the
results entries it walks, so two token lists agreeing on those positions give
identical loop outcomes. -/
theorem cm_collect_congr (ids₁ ids₂ : List String) :
    ∀ (rs : List GcmResult) (k : Nat),
      (∀ j, k ≤ j → j < k + rs.length → ids₁[j]? = ids₂[j]?) →
      cm_collect ids₁ k rs = cm_collect ids₂ k rs := by
  intro rs
  induction rs with
  | nil => intro k _; simp [cm_collect]
  | cons r rest ih =>
    intro k hag
    have hk : ids₁[k]? = ids₂[k]? := hag k le_rfl (by simp only [List.length_cons]; omega)
    have hrec : cm_collect ids₁ (k + 1) rest = cm_collect ids₂ (k + 1) rest := by
      apply ih
      intro j h₁ h₂
      apply hag j (by omega)
      simp only [List.length_cons]
      omega
    simp only [cm_collect, hk, hrec]

/-- The collect loop, on an in-range tail of the results array, computes
exactly the zip-based specification values: the terminal-coded tokens in order,
the rename pairs in order, and whether a non-terminal error code occurred. -/
theorem cm_collect_spec (ids : List String) :
    ∀ (rs : List GcmResult) (k : Nat), k + rs.length ≤ ids.length →
      cm_collect ids k rs =
        .ok (ids_to_remove_spec (ids.drop k) rs, old_new_spec (ids.drop k) rs,
             rs.any result_other_error) := by
  intro rs
  induction rs with
  | nil =>
    intro k _
    simp [cm_collect, ids_to_remove_spec, old_new_spec]
  | cons r rest ih =>
    intro k hlen
    have hk : k < ids.length := by
      simp only [List.length_cons] at hlen
      omega
    have hdrop : ids.drop k = ids[k] :: ids.drop (k + 1) := List.drop_eq_getElem_cons hk
    have hrec := ih (k + 1) (by simp only [List.length_cons] at hlen; omega)
    simp only [cm_collect, List.getElem?_eq_getElem hk, hrec, hdrop,
      ids_to_remove_spec, old_new_spec, List.zip_cons_cons, List.any_cons]
    rcases r with ⟨er, ni⟩
    rcases er with _ | e
    · rcases ni with _ | nid
      · simp [result_terminal, result_other_error, result_canonical, pyTruthyStr]
      · by_cases hnid : nid = "" <;>
          simp [result_terminal, result_other_error, result_canonical, pyTruthyStr, hnid]
    · rcases ni with _ | nid
      · by_cases he : e = ""
        · simp [result_terminal, result_other_error, result_canonical, pyTruthyStr, he,
            terminal_code]
        · by_cases ht : terminal_code e = true <;>
            simp [result_terminal, result_other_error, result_canonical, pyTruthyStr, he, ht]
      · by_cases hnid : nid = ""
        · by_cases he : e = ""
          · simp [result_terminal, result_other_error, result_canonical, pyTruthyStr, he,
              hnid, terminal_code]
          · by_cases ht : terminal_code e = true <;>
              simp [result_terminal, result_other_error, result_canonical, pyTruthyStr, he,
                ht, hnid]
        · by_cases he : e = ""
          · simp [result_terminal, result_other_error, result_canonical, pyTruthyStr, he,
              hnid, terminal_code]
          · by_cases ht : terminal_code e = true <;>
              simp [result_terminal, result_other_error, result_canonical, pyTruthyStr, he,
                ht, hnid]

/-- Deactivating an empty token set leaves the registry unchanged. -/
theorem deactivate_nil (reg : Registry) : deactivate_in [] reg = reg := by
  induction reg with
  | nil => rfl
  | cons d ds ih =>
    simp only [deactivate_in, List.map_cons, List.not_mem_nil, if_false] at ih ⊢
    simp [ih]

/-- Full characterization of _cm_handle_response when the gate is truthy and
the results array does not outrun the token list: the registry effect is the
batch deactivation of the terminal-coded tokens followed by the canonical-id
resolutions in discovered order, and GCMError is raised (carrying the full
response) exactly when some entry held a truthy non-terminal error code. -/
theorem cm_handle_response_ok (ids : List String) (rs : List GcmResult)
    (resp : GcmResponse) (reg : Registry) (hres : resp.results = some rs)
    (hlen : rs.length ≤ ids.length)
    (hgate : (pyTruthyInt resp.failure || pyTruthyInt resp.canonical_ids) = true) :
    cm_handle_response ids resp reg =
      (reconcile_effect ids rs reg,
       if rs.any result_other_error then .error (.gcmError resp) else .ok resp) := by
  have hcol := cm_collect_spec ids rs 0 (by omega)
  simp only [List.drop_zero] at hcol
  simp only [cm_handle_response, hgate, if_true, hres, hcol, reconcile_effect]
  by_cases hemp : (ids_to_remove_spec ids rs).isEmpty = true
  · have : ids_to_remove_spec ids rs = [] := by simpa [List.isEmpty_eq_true] using hemp
    rw [this, deactivate_nil]
    simp only [this, List.isEmpty_nil, if_true]
    by_cases hthr : rs.any result_other_error = true <;> simp [hthr]
  · simp only [hemp, Bool.false_eq_true, if_false]
    by_cases hthr : rs.any result_other_error = true <;> simp [hthr]

/-- Result entry and response used to refute claim C2 as stated: a non-terminal
error code inside a response whose top-level counts are both falsy. -/
def c2_result : GcmResult := { error := some "InternalServerError" }

/-- Response carrying c2_result with failure and canonical_ids both 0. -/
def c2_resp : GcmResponse :=
  { failure := some 0, canonical_ids := some 0, results := some [c2_result] }

/-- Counterexample to claim C2 as stated: the results array holds a truthy
non-terminal error code, yet _cm_handle_response raises nothing and mutates
nothing, because the top-level failure and canonical_ids counts are both falsy;
so "the rejection error is raised iff at least one non-terminal error code was
present" fails without the gate condition. -/
theorem claim_C2_counterexample :
    result_other_error c2_result = true ∧
    cm_handle_response ["A"] c2_resp [⟨"A", true⟩] = ([⟨"A", true⟩], .ok c2_resp) := by
  decide

/-- Claim C2 (as amended): provided the top-level failure or canonical_ids
count of the response is truthy, reconciliation of a chunk against an
equal-length results array behaves as follows: every index is processed; each
terminal-coded (NotRegistered / InvalidRegistration) entry marks its token for
deactivation and nothing else does (the deactivation set is exactly the
terminal-coded positions of the zip, in order); the registry mutations — batch
deactivation, then each rename in discovered order — are applied regardless of
whether the call fails; and GCMError, carrying the full response, is raised iff
at least one truthy non-terminal error code occurred. -/
theorem claim_C2_reconciler (ids : List String) (rs : List GcmResult)
    (resp : GcmResponse) (reg : Registry) (hres : resp.results = some rs)
    (hlen : rs.length = ids.length)
    (hgate : (pyTruthyInt resp.failure || pyTruthyInt resp.canonical_ids) = true) :
    cm_handle_response ids resp reg =
      ((old_new_spec ids rs).foldl (fun r p => cm_handle_canonical_id p.2 p.1 r)
         (deactivate_in (ids_to_remove_spec ids rs) reg),
       if rs.any result_other_error then .error (.gcmError resp) else .ok resp) :=
  cm_handle_response_ok ids rs resp reg hres (le_of_eq hlen) hgate

/-- Witness for C2 at a concrete chunk: one terminal and one non-terminal
error; the terminal token is deactivated, and GCMError is raised carrying the
full response. -/
theorem claim_C2_witness :
    GcmResponse.results
        { failure := some 2,
          results := some [{ error := some "NotRegistered" },
                           { error := some "Unavailable" }] }
      = some [{ error := some "NotRegistered" }, { error := some "Unavailable" }] ∧
    cm_handle_response ["A", "B"]
        { failure := some 2,
          results := some [{ error := some "NotRegistered" },
                           { error := some "Unavailable" }] }
        [⟨"A", true⟩, ⟨"B", true⟩]
      = ((old_new_spec ["A", "B"]
            [{ error := some "NotRegistered" }, { error := some "Unavailable" }]).foldl
           (fun r p => cm_handle_canonical_id p.2 p.1 r)
           (deactivate_in
             (ids_to_remove_spec ["A", "B"]
               [{ error := some "NotRegistered" }, { error := some "Unavailable" }])
             [⟨"A", true⟩, ⟨"B", true⟩]),
         if ([{ error := some "NotRegistered" },
              { error := some "Unavailable" }] : List GcmResult).any result_other_error then
           .error (.gcmError { failure := some 2,
                               results := some [{ error := some "NotRegistered" },
                                                { error := some "Unavailable" }] })
         else
           .ok { failure := some 2,
                 results := some [{ error := some "NotRegistered" },
                                  { error := some "Unavailable" }] }) :=
  ⟨by decide,
   claim_C2_reconciler ["A", "B"]
     [{ error := some "NotRegistered" }, { error := some "Unavailable" }]
     { failure := some 2,
       results := some [{ error := some "NotRegistered" },
                        { error := some "Unavailable" }] }
     [⟨"A", true⟩, ⟨"B", true⟩] (by decide) (by decide) (by decide)⟩

/-- Response used to refute claim C5: a truthy failure count with a results
array shorter than the chunk's token list. -/
def c5_resp : GcmResponse :=
  { failure := some 1, results := some [{ error := some "NotRegistered" }] }

/-- Counterexample to claim C5 as stated: tokens [A, B] with a one-element
results array are reconciled silently — the registry is mutated (A is
deactivated) and the call returns the response instead of failing fast with a
distinct protocol error. -/
theorem claim_C5_counterexample :
    cm_handle_response ["A", "B"] c5_resp [⟨"A", true⟩, ⟨"B", true⟩]
        = ([⟨"A", false⟩, ⟨"B", true⟩], .ok c5_resp) ∧
    ([⟨"A", false⟩, ⟨"B", true⟩] : Registry) ≠ [⟨"A", true⟩, ⟨"B", true⟩] := by
  decide

/-- Claim C5 (as amended): no length validation is performed and there is no
distinct protocol error. Under a truthy gate, a response with no results key
raises a plain KeyError (with the registry untouched), and a results array
shorter than the token list is silently reconciled against the aligned prefix
of the token list: the call behaves exactly as if the token list had been
truncated to the results length. -/
theorem claim_C5_no_validation (ids : List String) (rs : List GcmResult)
    (resp : GcmResponse) (reg : Registry)
    (hgate : (pyTruthyInt resp.failure || pyTruthyInt resp.canonical_ids) = true) :
    (resp.results = none → cm_handle_response ids resp reg = (reg, .error .keyError)) ∧
    (resp.results = some rs → rs.length ≤ ids.length →
      cm_handle_response ids resp reg = cm_handle_response (ids.take rs.length) resp reg) := by
  constructor
  · intro hres
    simp [cm_handle_response, hgate, hres]
  · intro hres hlen
    have hc : cm_collect ids 0 rs = cm_collect (ids.take rs.length) 0 rs := by
      apply cm_collect_congr
      intro j _ hj
      exact (List.getElem?_take_of_lt (by omega)).symm
    simp only [cm_handle_response, hres, hgate, if_true, hc]

/-- Witness for C5: a response with failure = 1 and no results key raises
KeyError with no registry mutation. -/
theorem claim_C5_witness :
    (pyTruthyInt (GcmResponse.failure { failure := some 1 }) ||
      pyTruthyInt (GcmResponse.canonical_ids { failure := some 1 })) = true ∧
    cm_handle_response ["A"] { failure := some 1 } [⟨"A", true⟩]
      = ([⟨"A", true⟩], .error .keyError) :=
  ⟨by decide,
   (claim_C5_no_validation ["A"] [] { failure := some 1 } [⟨"A", true⟩] (by decide)).1 rfl⟩

/-- Claim C3: each rename pair is applied after the batch deactivation, one by
one in the order discovered (the foldl over old_new_spec), and one resolution
step behaves per registry row as follows. When an active row with the canonical
id exists: every row holding the old token is deactivated in place (token kept)
and every other row — in particular the canonical-id row — is untouched.
Otherwise: every row holding the old token has its token renamed to the
canonical id with its active flag unchanged, and every other row is untouched.
No rows are created or deleted. -/
theorem claim_C3_canonical_resolution (canonical_id current_id : String) (reg : Registry) :
    ((cm_handle_canonical_id canonical_id current_id reg).length = reg.length) ∧
    ((∃ e ∈ reg, e.registration_id = canonical_id ∧ e.active = true) →
      ∀ i (h : i < reg.length),
        ((reg.get ⟨i, h⟩).registration_id = current_id →
          (cm_handle_canonical_id canonical_id current_id reg)[i]?
            = some { reg.get ⟨i, h⟩ with active := false }) ∧
        ((reg.get ⟨i, h⟩).registration_id ≠ current_id →
          (cm_handle_canonical_id canonical_id current_id reg)[i]?
            = some (reg.get ⟨i, h⟩))) ∧
    (¬(∃ e ∈ reg, e.registration_id = canonical_id ∧ e.active = true) →
      ∀ i (h : i < reg.length),
        ((reg.get ⟨i, h⟩).registration_id = current_id →
          (cm_handle_canonical_id canonical_id current_id reg)[i]?
            = some { reg.get ⟨i, h⟩ with registration_id := canonical_id }) ∧
        ((reg.get ⟨i, h⟩).registration_id ≠ current_id →
          (cm_handle_canonical_id canonical_id current_id reg)[i]?
            = some (reg.get ⟨i, h⟩))) ∧
    (∀ (ids : List String) (rs : List GcmResult) (resp : GcmResponse) (reg₁ : Registry),
      resp.results = some rs → rs.length = ids.length →
      (pyTruthyInt resp.failure || pyTruthyInt resp.canonical_ids) = true →
      (cm_handle_response ids resp reg₁).1
        = (old_new_spec ids rs).foldl (fun r p => cm_handle_canonical_id p.2 p.1 r)
            (deactivate_in (ids_to_remove_spec ids rs) reg₁)) := by
  have hany : (reg.any fun d => d.registration_id == canonical_id && d.active) = true ↔
      ∃ e ∈ reg, e.registration_id = canonical_id ∧ e.active = true := by
    simp [List.any_eq_true]
  refine ⟨?_, ?_, ?_, ?_⟩
  · by_cases hc : (reg.any fun d => d.registration_id == canonical_id && d.active) = true <;>
      simp [cm_handle_canonical_id, hc]
  · intro hex i h
    have hc : (reg.any fun d => d.registration_id == canonical_id && d.active) = true :=
      hany.mpr hex
    have hget : reg[i]? = some (reg.get ⟨i, h⟩) := by
      simp [List.getElem?_eq_getElem h]
    constructor
    · intro heq
      simp [cm_handle_canonical_id, hc, List.getElem?_map, hget, heq]
      intro hcon
      exact absurd heq hcon
    · intro hne
      simp [cm_handle_canonical_id, hc, List.getElem?_map, hget, hne]
      intro hcon
      exact absurd hcon hne
  · intro hex i h
    have hc : ¬((reg.any fun d => d.registration_id == canonical_id && d.active) = true) :=
      fun hcc => hex (hany.mp hcc)
    have hget : reg[i]? = some (reg.get ⟨i, h⟩) := by
      simp [List.getElem?_eq_getElem h]
    constructor
    · intro heq
      simp [cm_handle_canonical_id, hc, List.getElem?_map, hget, heq]
      intro hcon
      exact absurd heq hcon
    · intro hne
      simp [cm_handle_canonical_id, hc, List.getElem?_map, hget, hne]
      intro hcon
      exact absurd hcon hne
  · intro ids rs resp reg₁ hres hlen hgate
    rw [cm_handle_response_ok ids rs resp reg₁ hres (le_of_eq hlen) hgate]
    rfl

/-- Claim C7: for a non-empty token list the envelope always contains the
registration ids under the fixed key, contains data iff it is not None,
collapse_key iff truthy, delay_while_idle iff true, time_to_live iff non-zero;
and serialization is a function of the logical envelope content alone, so two
calls with identical logical content produce byte-identical output. -/
theorem claim_C7_request_builder (ids : List String) (a : GcmArgs) (h : ids ≠ []) :
    (∃ v, ("registration_ids", v) ∈ gcm_values ids a) ∧
    ((∃ v, ("data", v) ∈ gcm_values ids a) ↔ a.data ≠ none) ∧
    ((∃ v, ("collapse_key", v) ∈ gcm_values ids a) ↔ pyTruthyStr a.collapse_key = true) ∧
    ((∃ v, ("delay_while_idle", v) ∈ gcm_values ids a) ↔ a.delay_while_idle = true) ∧
    ((∃ v, ("time_to_live", v) ∈ gcm_values ids a) ↔ a.time_to_live ≠ 0) ∧
    (∀ (ids₂ : List String) (a₂ : GcmArgs), gcm_values ids₂ a₂ = gcm_values ids a →
      gcm_json_body ids₂ a₂ = gcm_json_body ids a) := by
  rcases a with ⟨d, ck, dwi, ttl⟩
  refine ⟨⟨PyJson.arr (ids.map PyJson.str), by simp [gcm_values]⟩, ?_, ?_, ?_, ?_, ?_⟩
  · cases d <;>
      by_cases hck : pyTruthyStr ck = true <;>
      cases dwi <;>
      by_cases httl : ttl = 0 <;>
      simp_all [gcm_values]
  · cases d <;>
      by_cases hck : pyTruthyStr ck = true <;>
      cases dwi <;>
      by_cases httl : ttl = 0 <;>
      simp_all [gcm_values]
  · cases d <;>
      by_cases hck : pyTruthyStr ck = true <;>
      cases dwi <;>
      by_cases httl : ttl = 0 <;>
      simp_all [gcm_values]
  · cases d <;>
      by_cases hck : pyTruthyStr ck = true <;>
      cases dwi <;>
      by_cases httl : ttl = 0 <;>
      simp_all [gcm_values]
  · intro ids₂ a₂ heq
    simp only [gcm_json_body, heq]

/-- Witness for C7 at a concrete payload: data present, collapse key empty
(falsy), delay false, ttl zero. -/
theorem claim_C7_witness :
    (["a"] : List String) ≠ [] ∧
    ((∃ v, ("collapse_key", v) ∈
        gcm_values ["a"] { data := some (PyJson.str "x"), collapse_key := some "" }) ↔
      pyTruthyStr (some "") = true) :=
  ⟨by decide,
   (claim_C7_request_builder ["a"] { data := some (PyJson.str "x"), collapse_key := some "" }
     (by decide)).2.2.1⟩

/-- An unconfigured (missing or empty) API key makes _gcm_send_json fail with
ImproperlyConfigured before the transport oracle is consulted: empty trace,
untouched registry. -/
theorem gcm_send_json_nokey (ids : List String) (a : GcmArgs) (st : Settings)
    (oracle : List String → GcmResponse) (reg : Registry)
    (hids : ids ≠ []) (hkey : pyTruthyStr st.gcm_api_key = false) :
    gcm_send_json ids a st oracle reg = (reg, [], .error .improperlyConfigured) := by
  have hne : ¬(ids.isEmpty = true) := by simpa [List.isEmpty_eq_true] using hids
  simp [gcm_send_json, hne, gcm_send_check, hkey]

/-- Claim C8: with no API key configured, a send of a non-empty token list —
through _gcm_send_json, gcm_send_message or gcm_send_bulk_message — raises
ImproperlyConfigured before any transport call is attempted: the trace of
transport invocations is empty and the registry is untouched. -/
theorem claim_C8_config_guard (ids : List String) (t : String) (a : GcmArgs)
    (st : Settings) (oracle : List String → GcmResponse) (reg : Registry)
    (hids : ids ≠ []) (hmax : 1 ≤ st.gcm_max_recipients)
    (hkey : pyTruthyStr st.gcm_api_key = false) :
    gcm_send_json ids a st oracle reg = (reg, [], .error .improperlyConfigured) ∧
    gcm_send_message t a st oracle reg = (reg, [], .error .improperlyConfigured) ∧
    gcm_send_bulk_message ids a st oracle reg = (reg, [], .error .improperlyConfigured) := by
  refine ⟨gcm_send_json_nokey ids a st oracle reg hids hkey, ?_, ?_⟩
  · simp [gcm_send_message,
      gcm_send_json_nokey [t] a st oracle reg (by simp) hkey]
  · by_cases hlen : ids.length > st.gcm_max_recipients
    · have hn : st.gcm_max_recipients ≠ 0 := by omega
      have hcc := chunks_cons hn (l := ids) hids
      have htake : ids.take st.gcm_max_recipients ≠ [] := by
        have := List.length_pos.mpr hids
        simp only [ne_eq, ← List.length_pos, List.length_take]
        omega
      simp [gcm_send_bulk_message, if_pos hlen, hcc, gcm_bulk_loop,
        gcm_send_json_nokey (ids.take st.gcm_max_recipients) a st oracle reg htake hkey,
        Except.map]
    · simp only [gcm_send_bulk_message, if_neg hlen]
      exact gcm_send_json_nokey ids a st oracle reg hids hkey

/-- Witness for C8 at a concrete call with an empty API key. -/
theorem claim_C8_witness :
    (["a"] : List String) ≠ [] ∧ 1 ≤ (1000 : Nat) ∧
    pyTruthyStr (Settings.gcm_api_key { gcm_api_key := some "" }) = false ∧
    gcm_send_message "a" {} { gcm_api_key := some "" } (fun _ => {}) [⟨"a", true⟩]
      = ([⟨"a", true⟩], [], .error .improperlyConfigured) :=
  ⟨by decide, by decide, by decide,
   (claim_C8_config_guard ["a"] "a" {} { gcm_api_key := some "" } (fun _ => {})
     [⟨"a", true⟩] (by decide) (by decide) (by decide)).2.1⟩

/-- Benign response used by the C4 counterexample: falsy counts, so
reconciliation returns it unchanged. -/
def c4_resp : GcmResponse := { failure := some 0 }

/-- Settings with a configured API key and the default batch size. -/
def c4_st : Settings := { gcm_api_key := some "k" }

/-- Oracle answering every chunk with the benign response. -/
def c4_oracle : List String → GcmResponse := fun _ => c4_resp

/-- Counterexample to claim C4 as stated: on the same input the bulk send of
the one-element list returns the gateway response while gcm_send_message
discards it and returns None, so the returned outcomes differ. -/
theorem claim_C4_counterexample :
    (gcm_send_message "a" {} c4_st c4_oracle []).2.2 = .ok .noneV ∧
    (gcm_send_bulk_message ["a"] {} c4_st c4_oracle []).2.2 = .ok (.respV c4_resp) ∧
    PyRet.noneV ≠ PyRet.respV c4_resp :=
  ⟨rfl, rfl, fun h => nomatch h⟩

/-- Claim C4 (as amended): for every token, payload and options, and a batch
limit of at least 1, gcm_send_message is equivalent to gcm_send_bulk_message on
the one-element list in registry mutations, transport activity and raised
errors; but it discards the returned outcome — whenever the bulk call returns
a value, the single call returns None. -/
theorem claim_C4_single_vs_bulk (t : String) (a : GcmArgs) (st : Settings)
    (oracle : List String → GcmResponse) (reg : Registry)
    (hmax : 1 ≤ st.gcm_max_recipients) :
    (gcm_send_message t a st oracle reg).1 = (gcm_send_bulk_message [t] a st oracle reg).1 ∧
    (gcm_send_message t a st oracle reg).2.1
      = (gcm_send_bulk_message [t] a st oracle reg).2.1 ∧
    (∀ e : PyErr,
      (gcm_send_message t a st oracle reg).2.2 = .error e ↔
        (gcm_send_bulk_message [t] a st oracle reg).2.2 = .error e) ∧
    (∀ v, (gcm_send_bulk_message [t] a st oracle reg).2.2 = .ok v →
      (gcm_send_message t a st oracle reg).2.2 = .ok .noneV) := by
  have hb : gcm_send_bulk_message [t] a st oracle reg = gcm_send_json [t] a st oracle reg := by
    have : ¬(([t] : List String).length > st.gcm_max_recipients) := by
      simp only [List.length_singleton]
      omega
    simp only [gcm_send_bulk_message, if_neg this]
  rcases hj : gcm_send_json [t] a st oracle reg with ⟨r, tr, res⟩
  cases res <;> simp [gcm_send_message, hb, hj]

/-- Witness for C4 at a concrete call: same registry outcome for single and
bulk send of one token. -/
theorem claim_C4_witness :
    1 ≤ c4_st.gcm_max_recipients ∧
    (gcm_send_message "a" {} c4_st c4_oracle []).1
      = (gcm_send_bulk_message ["a"] {} c4_st c4_oracle []).1 :=
  ⟨by decide, (claim_C4_single_vs_bulk "a" {} c4_st c4_oracle [] (by decide)).1⟩

/-- With a configured key and a non-empty chunk, _gcm_send_json performs
exactly one transport invocation, recording the chunk and its body. -/
theorem gcm_send_json_trace (c : List String) (a : GcmArgs) (st : Settings)
    (oracle : List String → GcmResponse) (reg : Registry)
    (hc : c ≠ []) (hkey : pyTruthyStr st.gcm_api_key = true) :
    (gcm_send_json c a st oracle reg).2.1 = [(c, gcm_json_body c a)] := by
  have hne : ¬(c.isEmpty = true) := by simpa [List.isEmpty_eq_true] using hc
  rcases h2 : cm_handle_response c (oracle c) reg with ⟨rg, rr⟩
  cases rr <;> simp [gcm_send_json, hne, gcm_send_check, hkey, h2]

/-- The chunk loop under a configured key and non-empty chunks: on success the
trace is exactly the chunk list and one outcome is collected per chunk; on an
exception the trace is the chunk prefix up to and including the failing chunk,
so the remaining chunks were never dispatched. -/
theorem gcm_bulk_loop_spec (a : GcmArgs) (st : Settings)
    (oracle : List String → GcmResponse) (hkey : pyTruthyStr st.gcm_api_key = true) :
    ∀ (cs : List (List String)) (reg : Registry), (∀ c ∈ cs, c ≠ []) →
      (∀ vs, (gcm_bulk_loop cs a st oracle reg).2.2 = .ok vs →
        (gcm_bulk_loop cs a st oracle reg).2.1.map Prod.fst = cs ∧ vs.length = cs.length) ∧
      (∀ e, (gcm_bulk_loop cs a st oracle reg).2.2 = .error e →
        ∃ k, k < cs.length ∧
          (gcm_bulk_loop cs a st oracle reg).2.1.map Prod.fst = cs.take (k + 1)) := by
  intro cs
  induction cs with
  | nil =>
    intro reg _
    constructor
    · intro vs hvs
      simp only [gcm_bulk_loop] at hvs ⊢
      injection hvs with hvs
      simp [← hvs]
    · intro e he
      simp [gcm_bulk_loop] at he
  | cons c rest ih =>
    intro reg hne
    have hc : c ≠ [] := hne c (List.mem_cons_self c rest)
    have hrest : ∀ x ∈ rest, x ≠ [] := fun x hx => hne x (List.mem_cons_of_mem c hx)
    have htr := gcm_send_json_trace c a st oracle reg hc hkey
    rcases hj : gcm_send_json c a st oracle reg with ⟨r₁, tr₁, res₁⟩
    have htr₁ : tr₁ = [(c, gcm_json_body c a)] := by
      rw [hj] at htr
      exact htr
    subst htr₁
    cases res₁ with
    | error e₁ =>
      constructor
      · intro vs hvs
        simp [gcm_bulk_loop, hj] at hvs
      · intro e he
        refine ⟨0, by simp, ?_⟩
        simp [gcm_bulk_loop, hj]
    | ok v₁ =>
      have ihr := ih r₁ hrest
      rcases hl : gcm_bulk_loop rest a st oracle r₁ with ⟨r₂, tr₂, res₂⟩
      cases res₂ with
      | error e₂ =>
        constructor
        · intro vs hvs
          simp [gcm_bulk_loop, hj, hl] at hvs
        · intro e he
          have := (ihr.2 e₂ (by rw [hl]))
          rcases this with ⟨k, hk, hpre⟩
          rw [hl] at hpre
          refine ⟨k + 1, by simp only [List.length_cons]; omega, ?_⟩
          simp only [gcm_bulk_loop, hj, hl, List.map_append, List.map_cons, List.map_nil,
            List.take_succ_cons]
          simp only [List.map] at hpre
          simp [hpre]
      | ok vs₂ =>
        have := (ihr.1 vs₂ (by rw [hl]))
        rw [hl] at this
        constructor
        · intro vs hvs
          simp only [gcm_bulk_loop, hj, hl] at hvs ⊢
          injection hvs with hvs
          subst hvs
          simp only [List.map_append, List.map_cons, List.map_nil, List.length_cons]
          constructor
          · simp [this.1]
          · simp [this.2]
        · intro e he
          simp [gcm_bulk_loop, hj, hl] at he

/-- Chunk response triggering GCMError in the C1 counterexample. -/
def c1_bad : GcmResponse :=
  { failure := some 1, results := some [{ error := some "Unavailable" }] }

/-- Benign chunk response for the C1 counterexample. -/
def c1_good : GcmResponse := { failure := some 0 }

/-- Oracle that rejects exactly the second chunk ["b"]. -/
def c1_oracle : List String → GcmResponse := fun c => if c = ["b"] then c1_bad else c1_good

/-- Settings with a configured API key and a maximum batch size of 1. -/
def c1_st : Settings := { gcm_api_key := some "k", gcm_max_recipients := 1 }

/-- Counterexample to claim C1 as stated: with max batch 1 and tokens
[a, b, c], the second chunk's reconciliation raises GCMError; only two of the
three chunks are dispatched (the trace ends at ["b"], the chunk ["c"] is never
sent) and the error propagates instead of an ordered list of per-chunk
outcomes being returned. -/
theorem claim_C1_counterexample :
    ((gcm_send_bulk_message ["a", "b", "c"] {} c1_st c1_oracle []).2.1).map Prod.fst
        = [["a"], ["b"]] ∧
    chunks ["a", "b", "c"] 1 = [["a"], ["b"], ["c"]] ∧
    (gcm_send_bulk_message ["a", "b", "c"] {} c1_st c1_oracle []).2.2
        = .error (.gcmError c1_bad) :=
  ⟨by decide, by decide, rfl⟩

/-- Claim C1 (as amended): when the token list exceeds the maximum batch size,
the bulk send dispatches the Batcher's chunks (contiguous, max-sized except
possibly the last, covering the input in order) sequentially; when no chunk
raises, every chunk is dispatched and one outcome is collected per chunk in
order; but when a chunk's reconciliation raises, the error propagates at once:
the dispatched chunks are exactly the prefix ending at the failing chunk, and
the later chunks are not sent. -/
theorem claim_C1_bulk_dispatch (ids : List String) (a : GcmArgs) (st : Settings)
    (oracle : List String → GcmResponse) (reg : Registry)
    (hkey : pyTruthyStr st.gcm_api_key = true) (hmax : 1 ≤ st.gcm_max_recipients)
    (hlen : ids.length > st.gcm_max_recipients) :
    ((chunks ids st.gcm_max_recipients).flatten = ids ∧
      (∀ c ∈ (chunks ids st.gcm_max_recipients).dropLast,
        c.length = st.gcm_max_recipients) ∧
      (∀ c ∈ chunks ids st.gcm_max_recipients,
        c.length ≤ st.gcm_max_recipients ∧ c ≠ [])) ∧
    (∀ vs, (gcm_send_bulk_message ids a st oracle reg).2.2 = .ok (.listV vs) →
      (gcm_send_bulk_message ids a st oracle reg).2.1.map Prod.fst
          = chunks ids st.gcm_max_recipients ∧
      vs.length = (chunks ids st.gcm_max_recipients).length) ∧
    (∀ e, (gcm_send_bulk_message ids a st oracle reg).2.2 = .error e →
      ∃ k, k < (chunks ids st.gcm_max_recipients).length ∧
        (gcm_send_bulk_message ids a st oracle reg).2.1.map Prod.fst
            = (chunks ids st.gcm_max_recipients).take (k + 1)) := by
  have hn : st.gcm_max_recipients ≠ 0 := by omega
  have hne : ∀ c ∈ chunks ids st.gcm_max_recipients, c ≠ [] :=
    fun c hc => (chunks_mem_length hn ids c hc).2
  have hspec := gcm_bulk_loop_spec a st oracle hkey (chunks ids st.gcm_max_recipients) reg hne
  refine ⟨⟨chunks_flatten hn ids, chunks_dropLast_length hn ids, chunks_mem_length hn ids⟩,
    ?_, ?_⟩
  · intro vs hvs
    rcases hl : gcm_bulk_loop (chunks ids st.gcm_max_recipients) a st oracle reg
      with ⟨r, tr, res⟩
    rw [hl] at hspec
    simp only [gcm_send_bulk_message, if_pos hlen, hl] at hvs ⊢
    cases res with
    | error e => simp [Except.map] at hvs
    | ok vs' =>
      simp only [Except.map] at hvs
      injection hvs with hvs
      injection hvs with hvs
      subst hvs
      exact hspec.1 vs' rfl
  · intro e he
    rcases hl : gcm_bulk_loop (chunks ids st.gcm_max_recipients) a st oracle reg
      with ⟨r, tr, res⟩
    rw [hl] at hspec
    simp only [gcm_send_bulk_message, if_pos hlen, hl] at he ⊢
    cases res with
    | error e' =>
      simp only [Except.map] at he
      injection he with he
      subst he
      exact hspec.2 _ rfl
    | ok vs' => simp [Except.map] at he

/-- Witness for C1 at a concrete over-limit call. -/
theorem claim_C1_witness :
    pyTruthyStr c1_st.gcm_api_key = true ∧ 1 ≤ c1_st.gcm_max_recipients ∧
    (["a", "b", "c"] : List String).length > c1_st.gcm_max_recipients ∧
    (chunks ["a", "b", "c"] c1_st.gcm_max_recipients).flatten = ["a", "b", "c"] :=
  ⟨by decide, by decide, by decide,
   (claim_C1_bulk_dispatch ["a", "b", "c"] {} c1_st c1_oracle [] (by decide) (by decide)
     (by decide)).1.1⟩

/-- Mapping a function that fixes every element of a list is the identity. -/
theorem list_map_self {α : Type} (f : α → α) (l : List α) (h : ∀ x ∈ l, f x = x) :
    l.map f = l := by
  induction l with
  | nil => rfl
  | cons x xs ih =>
    simp only [List.map_cons, h x (List.mem_cons_self x xs)]
    rw [ih fun y hy => h y (List.mem_cons_of_mem x hy)]

/-- Every token marked for deactivation is one of the chunk's tokens. -/
theorem ids_to_remove_spec_subset (ids : List String) (rs : List GcmResult) :
    ∀ x ∈ ids_to_remove_spec ids rs, x ∈ ids := by
  intro x hx
  simp only [ids_to_remove_spec, List.mem_map, List.mem_filter] at hx
  rcases hx with ⟨p, ⟨hz, _⟩, rfl⟩
  rcases p with ⟨u, v⟩
  exact (List.of_mem_zip hz).1

/-- Every rename pair's old token is one of the chunk's tokens. -/
theorem old_new_spec_fst (ids : List String) (rs : List GcmResult) :
    ∀ p ∈ old_new_spec ids rs, p.1 ∈ ids := by
  intro p hp
  simp only [old_new_spec, List.mem_map, List.mem_filter] at hp
  rcases hp with ⟨q, ⟨hz, _⟩, rfl⟩
  rcases q with ⟨u, v⟩
  exact (List.of_mem_zip hz).1

/-- Every row whose token lies in a set is inactive. -/
def inactive_on (D : List String) (reg : Registry) : Prop :=
  ∀ e ∈ reg, e.registration_id ∈ D → e.active = false

/-- Stability of one rename pair against a registry: the rows holding the old
token are all inactive, and if any row holds the old token then some active row
holds the new token. A pair in this relation to the registry is a no-op. -/
def pair_inv (p : String × String) (reg : Registry) : Prop :=
  (∀ e ∈ reg, e.registration_id = p.1 → e.active = false) ∧
  ((∃ e ∈ reg, e.registration_id = p.1) → ∃ e ∈ reg, e.registration_id = p.2 ∧ e.active = true)

/-- When an active row holds the canonical id, the resolution step is the
deactivation of the rows holding the current token. -/
theorem canon_pos {canonical_id current_id : String} {reg : Registry}
    (h : (reg.any fun d => d.registration_id == canonical_id && d.active) = true) :
    cm_handle_canonical_id canonical_id current_id reg
      = reg.map fun d =>
          if d.registration_id = current_id then { d with active := false } else d := by
  simp only [cm_handle_canonical_id, h, if_true]

/-- When no active row holds the canonical id, the resolution step is the
in-place rename of the rows holding the current token. -/
theorem canon_neg {canonical_id current_id : String} {reg : Registry}
    (h : ¬((reg.any fun d => d.registration_id == canonical_id && d.active) = true)) :
    cm_handle_canonical_id canonical_id current_id reg
      = reg.map fun d =>
          if d.registration_id = current_id then { d with registration_id := canonical_id }
          else d := by
  simp only [cm_handle_canonical_id, h, Bool.false_eq_true, if_false]

/-- After the batch deactivation every row with a token in the batch is inactive. -/
theorem inactive_on_deactivate (D : List String) (reg : Registry) :
    inactive_on D (deactivate_in D reg) := by
  intro e he hmem
  rw [deactivate_in, List.mem_map] at he
  rcases he with ⟨d, hd, rfl⟩
  by_cases hin : d.registration_id ∈ D
  · simp [hin]
  · rw [if_neg hin] at hmem
    exact absurd hmem hin

/-- Deactivating tokens whose rows are already inactive changes nothing. -/
theorem deactivate_noop (D : List String) (reg : Registry) (h : inactive_on D reg) :
    deactivate_in D reg = reg := by
  apply list_map_self
  intro d hd
  by_cases hin : d.registration_id ∈ D
  · have := h d hd hin
    cases d
    simp_all
  · simp [hin]

/-- A canonical-id resolution step never reactivates a row holding a token of
the set, and (when the canonical id is outside the set) never moves a row into
the set, so inactivity on the set is preserved. -/
theorem inactive_on_canon (D : List String) (canonical_id current_id : String)
    (reg : Registry) (hnew : canonical_id ∉ D) (h : inactive_on D reg) :
    inactive_on D (cm_handle_canonical_id canonical_id current_id reg) := by
  intro e he hmem
  by_cases hc : (reg.any fun d => d.registration_id == canonical_id && d.active) = true
  · rw [canon_pos hc, List.mem_map] at he
    rcases he with ⟨d, hd, rfl⟩
    by_cases hcur : d.registration_id = current_id
    · simp [hcur]
    · rw [if_neg hcur] at hmem ⊢
      exact h d hd hmem
  · rw [canon_neg hc, List.mem_map] at he
    rcases he with ⟨d, hd, rfl⟩
    by_cases hcur : d.registration_id = current_id
    · rw [if_pos hcur] at hmem
      exact absurd hmem hnew
    · rw [if_neg hcur] at hmem ⊢
      exact h d hd hmem

/-- Inactivity on a set is preserved across a sequence of canonical-id
resolutions whose canonical ids all lie outside the set. -/
theorem inactive_on_foldl (D : List String) (ps : List (String × String))
    (h2 : ∀ p ∈ ps, p.2 ∉ D) :
    ∀ reg : Registry, inactive_on D reg →
      inactive_on D (ps.foldl (fun r q => cm_handle_canonical_id q.2 q.1 r) reg) := by
  induction ps with
  | nil => intro reg h; exact h
  | cons q rest ih =>
    intro reg h
    simp only [List.foldl_cons]
    exact ih (fun p hp => h2 p (List.mem_cons_of_mem q hp))
      (cm_handle_canonical_id q.2 q.1 reg)
      (inactive_on_canon D q.2 q.1 reg (h2 q (List.mem_cons_self q rest)) h)

/-- Applying a rename pair establishes its own stability relation. -/
theorem pair_inv_canon_self (p : String × String) (reg : Registry) (hno : p.1 ≠ p.2) :
    pair_inv p (cm_handle_canonical_id p.2 p.1 reg) := by
  by_cases hc : (reg.any fun d => d.registration_id == p.2 && d.active) = true
  · constructor
    · intro e he heq
      rw [canon_pos hc, List.mem_map] at he
      rcases he with ⟨d, hd, rfl⟩
      by_cases hcur : d.registration_id = p.1
      · simp [hcur]
      · rw [if_neg hcur] at heq
        exact absurd heq hcur
    · intro _
      rcases List.any_eq_true.mp hc with ⟨w, hw, hwp⟩
      simp only [Bool.and_eq_true, beq_iff_eq] at hwp
      refine ⟨w, ?_, hwp.1, hwp.2⟩
      rw [canon_pos hc, List.mem_map]
      refine ⟨w, hw, ?_⟩
      have hwno : w.registration_id ≠ p.1 := by
        rw [hwp.1]
        exact fun hh => hno hh.symm
      rw [if_neg hwno]
  · have hnone : ∀ e ∈ cm_handle_canonical_id p.2 p.1 reg, e.registration_id ≠ p.1 := by
      intro e he
      rw [canon_neg hc, List.mem_map] at he
      rcases he with ⟨d, hd, rfl⟩
      by_cases hcur : d.registration_id = p.1
      · rw [if_pos hcur]
        exact fun hh => hno hh.symm
      · rw [if_neg hcur]
        exact hcur
    constructor
    · intro e he heq
      exact absurd heq (hnone e he)
    · intro hex
      rcases hex with ⟨e, he, heq⟩
      exact absurd heq (hnone e he)

/-- Stability of a rename pair is preserved by a later resolution step whose
old token also comes from the chunk and whose canonical id is also fresh. -/
theorem pair_inv_canon (ts : List String) (p q : String × String) (reg : Registry)
    (hp1 : p.1 ∈ ts) (hp2 : p.2 ∉ ts) (hq1 : q.1 ∈ ts) (hq2 : q.2 ∉ ts)
    (h : pair_inv p reg) : pair_inv p (cm_handle_canonical_id q.2 q.1 reg) := by
  have hp2q1 : p.2 ≠ q.1 := fun hh => hp2 (hh ▸ hq1)
  have hq2p1 : q.2 ≠ p.1 := fun hh => hq2 (hh ▸ hp1)
  by_cases hc : (reg.any fun d => d.registration_id == q.2 && d.active) = true
  · constructor
    · intro e he heq
      rw [canon_pos hc, List.mem_map] at he
      rcases he with ⟨d, hd, rfl⟩
      by_cases hcur : d.registration_id = q.1
      · rw [if_pos hcur]
      · rw [if_neg hcur] at heq ⊢
        exact h.1 d hd heq
    · intro hex
      rcases hex with ⟨e, he, heq⟩
      rw [canon_pos hc, List.mem_map] at he
      rcases he with ⟨d, hd, rfl⟩
      have hdp : d.registration_id = p.1 := by
        by_cases hcur : d.registration_id = q.1
        · rw [if_pos hcur] at heq
          exact heq
        · rw [if_neg hcur] at heq
          exact heq
      rcases h.2 ⟨d, hd, hdp⟩ with ⟨w, hw, hw2, hwact⟩
      have hwq : w.registration_id ≠ q.1 := by
        rw [hw2]
        exact hp2q1
      refine ⟨w, ?_, hw2, hwact⟩
      rw [canon_pos hc, List.mem_map]
      exact ⟨w, hw, by rw [if_neg hwq]⟩
  · constructor
    · intro e he heq
      rw [canon_neg hc, List.mem_map] at he
      rcases he with ⟨d, hd, rfl⟩
      by_cases hcur : d.registration_id = q.1
      · rw [if_pos hcur] at heq
        exact absurd heq hq2p1
      · rw [if_neg hcur] at heq ⊢
        exact h.1 d hd heq
    · intro hex
      rcases hex with ⟨e, he, heq⟩
      rw [canon_neg hc, List.mem_map] at he
      rcases he with ⟨d, hd, rfl⟩
      have hdp : d.registration_id = p.1 := by
        by_cases hcur : d.registration_id = q.1
        · rw [if_pos hcur] at heq
          exact absurd heq hq2p1
        · rw [if_neg hcur] at heq
          exact heq
      rcases h.2 ⟨d, hd, hdp⟩ with ⟨w, hw, hw2, hwact⟩
      have hwq : w.registration_id ≠ q.1 := by
        rw [hw2]
        exact hp2q1
      refine ⟨w, ?_, hw2, hwact⟩
      rw [canon_neg hc, List.mem_map]
      exact ⟨w, hw, by rw [if_neg hwq]⟩

/-- Stability of a rename pair is preserved by a whole sequence of later
resolutions drawn from the same chunk with fresh canonical ids. -/
theorem pair_inv_foldl (ts : List String) (p : String × String)
    (hp1 : p.1 ∈ ts) (hp2 : p.2 ∉ ts) :
    ∀ (rest : List (String × String)), (∀ q ∈ rest, q.1 ∈ ts) → (∀ q ∈ rest, q.2 ∉ ts) →
      ∀ reg : Registry, pair_inv p reg →
        pair_inv p (rest.foldl (fun r q => cm_handle_canonical_id q.2 q.1 r) reg) := by
  intro rest
  induction rest with
  | nil => intro _ _ reg h; exact h
  | cons q rest₂ ih =>
    intro h1 h2 reg h
    simp only [List.foldl_cons]
    exact ih (fun x hx => h1 x (List.mem_cons_of_mem q hx))
      (fun x hx => h2 x (List.mem_cons_of_mem q hx))
      (cm_handle_canonical_id q.2 q.1 reg)
      (pair_inv_canon ts p q reg hp1 hp2 (h1 q (List.mem_cons_self q rest₂))
        (h2 q (List.mem_cons_self q rest₂)) h)

/-- After the whole sequence of resolutions has been applied, every pair of the
sequence is stable against the resulting registry. -/
theorem pair_inv_after (ts : List String) :
    ∀ (ps : List (String × String)), (∀ q ∈ ps, q.1 ∈ ts) → (∀ q ∈ ps, q.2 ∉ ts) →
      ∀ reg : Registry, ∀ p ∈ ps,
        pair_inv p (ps.foldl (fun r q => cm_handle_canonical_id q.2 q.1 r) reg) := by
  intro ps
  induction ps with
  | nil => intro _ _ reg p hp; exact absurd hp (List.not_mem_nil p)
  | cons q rest ih =>
    intro h1 h2 reg p hp
    simp only [List.foldl_cons]
    rcases List.mem_cons.mp hp with rfl | hp₂
    · have hq1 := h1 p (List.mem_cons_self p rest)
      have hq2 := h2 p (List.mem_cons_self p rest)
      have hno : p.1 ≠ p.2 := fun hh => hq2 (hh ▸ hq1)
      exact pair_inv_foldl ts p hq1 hq2 rest
        (fun x hx => h1 x (List.mem_cons_of_mem p hx))
        (fun x hx => h2 x (List.mem_cons_of_mem p hx))
        (cm_handle_canonical_id p.2 p.1 reg)
        (pair_inv_canon_self p reg hno)
    · exact ih (fun x hx => h1 x (List.mem_cons_of_mem q hx))
        (fun x hx => h2 x (List.mem_cons_of_mem q hx))
        (cm_handle_canonical_id q.2 q.1 reg) p hp₂

/-- A resolution step whose pair is stable against the registry is a no-op. -/
theorem canon_noop (p : String × String) (reg : Registry) (h : pair_inv p reg)
    (hno : p.1 ≠ p.2) : cm_handle_canonical_id p.2 p.1 reg = reg := by
  by_cases hc : (reg.any fun d => d.registration_id == p.2 && d.active) = true
  · rw [canon_pos hc]
    apply list_map_self
    intro d hd
    by_cases hcur : d.registration_id = p.1
    · rw [if_pos hcur]
      have := h.1 d hd hcur
      cases d
      simp_all
    · rw [if_neg hcur]
  · rw [canon_neg hc]
    apply list_map_self
    intro d hd
    by_cases hcur : d.registration_id = p.1
    · exfalso
      apply hc
      rcases h.2 ⟨d, hd, hcur⟩ with ⟨w, hw, hw2, hwact⟩
      exact List.any_eq_true.mpr ⟨w, hw, by simp [hw2, hwact]⟩
    · rw [if_neg hcur]

/-- A sequence of resolutions all of whose pairs are stable is a no-op. -/
theorem foldl_canon_noop :
    ∀ (ps : List (String × String)) (reg : Registry),
      (∀ p ∈ ps, pair_inv p reg ∧ p.1 ≠ p.2) →
      ps.foldl (fun r q => cm_handle_canonical_id q.2 q.1 r) reg = reg := by
  intro ps
  induction ps with
  | nil => intro reg _; rfl
  | cons q rest ih =>
    intro reg h
    simp only [List.foldl_cons]
    rw [canon_noop q reg (h q (List.mem_cons_self q rest)).1
      (h q (List.mem_cons_self q rest)).2]
    exact ih reg fun p hp => h p (List.mem_cons_of_mem q hp)

/-- The registry effect of one chunk reconciliation is idempotent provided
every canonical id in the response is fresh: not equal to any of the chunk's
tokens. -/
theorem reconcile_effect_idem (ids : List String) (rs : List GcmResult)
    (hfresh : ∀ p ∈ old_new_spec ids rs, p.2 ∉ ids) (reg : Registry) :
    reconcile_effect ids rs (reconcile_effect ids rs reg) = reconcile_effect ids rs reg := by
  have hDsub := ids_to_remove_spec_subset ids rs
  have hps1 := old_new_spec_fst ids rs
  have hps2D : ∀ p ∈ old_new_spec ids rs, p.2 ∉ ids_to_remove_spec ids rs :=
    fun p hp hmem => hfresh p hp (hDsub _ hmem)
  have hIn : inactive_on (ids_to_remove_spec ids rs) (reconcile_effect ids rs reg) :=
    inactive_on_foldl (ids_to_remove_spec ids rs) (old_new_spec ids rs) hps2D
      (deactivate_in (ids_to_remove_spec ids rs) reg)
      (inactive_on_deactivate (ids_to_remove_spec ids rs) reg)
  have hDe : deactivate_in (ids_to_remove_spec ids rs) (reconcile_effect ids rs reg)
      = reconcile_effect ids rs reg :=
    deactivate_noop _ _ hIn
  have hPairs : ∀ p ∈ old_new_spec ids rs, pair_inv p (reconcile_effect ids rs reg) :=
    pair_inv_after ids (old_new_spec ids rs) hps1 hfresh
      (deactivate_in (ids_to_remove_spec ids rs) reg)
  show (old_new_spec ids rs).foldl (fun r p => cm_handle_canonical_id p.2 p.1 r)
      (deactivate_in (ids_to_remove_spec ids rs) (reconcile_effect ids rs reg))
    = reconcile_effect ids rs reg
  rw [hDe]
  apply foldl_canon_noop
  intro p hp
  refine ⟨hPairs p hp, fun hh => hfresh p hp (hh ▸ hps1 p hp)⟩

/-- Response used to refute claim C9: a terminal error on token A together
with a canonical id equal to A for token C. -/
def c9_resp : GcmResponse :=
  { failure := some 1, canonical_ids := some 1,
    results := some [{ error := some "NotRegistered" }, { registration_id := some "A" }] }

/-- Counterexample to claim C9 as stated: reconciling c9_resp once deactivates
A and renames C to A (leaving the renamed row active); reconciling it a second
time deactivates the renamed row too, so the final registry states differ. -/
theorem claim_C9_counterexample :
    (cm_handle_response ["A", "C"] c9_resp [⟨"A", true⟩, ⟨"C", true⟩]).1
        = [⟨"A", false⟩, ⟨"A", true⟩] ∧
    (cm_handle_response ["A", "C"] c9_resp
        (cm_handle_response ["A", "C"] c9_resp [⟨"A", true⟩, ⟨"C", true⟩]).1).1
        = [⟨"A", false⟩, ⟨"A", false⟩] ∧
    ([⟨"A", false⟩, ⟨"A", true⟩] : Registry) ≠ [⟨"A", false⟩, ⟨"A", false⟩] := by
  decide

/-- Claim C9 (as amended): reconciling the same response twice yields the same
final registry state as reconciling it once, provided every canonical id in
the response is fresh — not equal to any token of the chunk's token list (the
counterexample shows idempotence fails when a canonical id collides with a
sent token). Batch deactivation and each resolution step are then jointly
idempotent. -/
theorem claim_C9_idempotent (ids : List String) (rs : List GcmResult) (resp : GcmResponse)
    (reg : Registry) (hres : resp.results = some rs) (hlen : rs.length = ids.length)
    (hfresh : ∀ p ∈ old_new_spec ids rs, p.2 ∉ ids) :
    (cm_handle_response ids resp (cm_handle_response ids resp reg).1).1
      = (cm_handle_response ids resp reg).1 := by
  by_cases hgate : (pyTruthyInt resp.failure || pyTruthyInt resp.canonical_ids) = true
  · rw [cm_handle_response_ok ids rs resp reg hres (le_of_eq hlen) hgate]
    show (cm_handle_response ids resp (reconcile_effect ids rs reg)).1
      = reconcile_effect ids rs reg
    rw [cm_handle_response_ok ids rs resp (reconcile_effect ids rs reg) hres
      (le_of_eq hlen) hgate]
    exact reconcile_effect_idem ids rs hfresh reg
  · rw [Bool.not_eq_true] at hgate
    simp [cm_handle_response, hgate]

/-- Response with a fresh canonical id for the C9 witness. -/
def c9w_resp : GcmResponse :=
  { canonical_ids := some 1, results := some [{ registration_id := some "B" }] }

/-- Witness for C9 at a concrete reconciliation with a fresh canonical id. -/
theorem claim_C9_witness :
    c9w_resp.results = some [{ registration_id := some "B" }] ∧
    ([{ registration_id := some "B" }] : List GcmResult).length = (["A"] : List String).length ∧
    (∀ p ∈ old_new_spec ["A"] [{ registration_id := some "B" }],
      p.2 ∉ (["A"] : List String)) ∧
    (cm_handle_response ["A"] c9w_resp
        (cm_handle_response ["A"] c9w_resp [⟨"A", true⟩]).1).1
      = (cm_handle_response ["A"] c9w_resp [⟨"A", true⟩]).1 :=
  ⟨rfl, by decide, by decide,
   claim_C9_idempotent ["A"] [{ registration_id := some "B" }] c9w_resp [⟨"A", true⟩]
     rfl (by decide) (by decide)⟩

/-- Witness for C3 at a concrete registry: an active row with the canonical id
exists, so the row holding the old token is deactivated in place. -/
theorem claim_C3_witness :
    (∃ e ∈ ([⟨"N", true⟩, ⟨"C", true⟩] : Registry),
      e.registration_id = "N" ∧ e.active = true) ∧
    (cm_handle_canonical_id "N" "C" [⟨"N", true⟩, ⟨"C", true⟩])[1]?
      = some ⟨"C", false⟩ :=
  ⟨by decide,
   ((claim_C3_canonical_resolution "N" "C" [⟨"N", true⟩, ⟨"C", true⟩]).2.1
     (by decide) 1 (by decide)).1 (by decide)⟩
